import Mathlib

/-!
Verification development for the `CanvasEntry` rendering module of the
wavesurfer.js fork: the tile holding a wave canvas, an optional progress
canvas and two optional restrict canvases, together with the envelope
rasterizer `drawLineToContext`.

The JavaScript is embedded shallowly:
* floating-point numbers are idealized as rationals (`ℚ`); every rounding
  outcome relevant to the statements below is exact at their inputs;
* `Math.round` is `jsRound` (round half toward positive infinity);
* array reads `peaks[k] || 0` become total lookups defaulting to `0`;
* a canvas 2D context/bitmap is modelled by the list of drawing operations
  it received since its last full clear (`Surface.content`); a full-canvas
  `clearRect` (the only form this module ever issues) resets the recorded
  content to the blank list `[]`;
* a thrown `TypeError` (drawing through a `null` context where the source
  does not guard) is modelled by an `Option`-valued result being `none`;
* a canvas element and its 2D rendering context never diverge in the
  source (`initWave`/`initProgress`/`initRestricted` create both together
  and `destroy` nulls each pair together), so each element/context pair is
  modelled by a single `Option Surface` field.
-/

namespace Wavesurfer

/-- JavaScript `Math.round`: round half toward positive infinity. -/
def jsRound (q : ℚ) : ℤ := ⌊q + 1/2⌋

/-- JavaScript `peaks[k] || 0` for a natural-number index. -/
def peakAt (peaks : List ℚ) (k : ℕ) : ℚ := peaks.getD k 0

/-- JavaScript `peaks[k] || 0` for a possibly negative integer index (an
out-of-range or negative subscript reads `undefined`, coerced to `0`). -/
def peakAtZ (peaks : List ℚ) (k : ℤ) : ℚ :=
  if k < 0 then 0 else peaks.getD k.toNat 0

/-- The integer interval `[a, b)` in increasing order, as iterated by
`for (i = first; i < last; i++)` in `drawLineToContext`. -/
def intRange (a b : ℤ) : List ℤ :=
  (List.range (b - a).toNat).map fun n => a + n

/-- The peak-to-pixel normalization of `drawLineToContext`:
`Math.round(peak_val / absmaxHalf)` with `absmaxHalf = absmax / halfH`. -/
def ampToPx (absmax halfH v : ℚ) : ℤ := jsRound (v / (absmax / halfH))

/-- Source line `const first = start + Math.round(view_length * this.start)` of
`drawLineToContext`; `tileStart` is the tile field `this.start`, and
`start`, `end_` are the view-window peak indices passed by the caller. -/
def firstIndex (tileStart : ℚ) (start end_ : ℤ) : ℤ :=
  start + jsRound (((end_ : ℚ) - (start : ℚ)) * tileStart)

/-- Source line `const last = start + Math.round(view_length * this.end) + 1` of
`drawLineToContext`; `tileEnd` is the tile field `this.end`. -/
def lastIndex (tileEnd : ℚ) (start end_ : ℤ) : ℤ :=
  start + jsRound (((end_ : ℚ) - (start : ℚ)) * tileEnd) + 1

/-- A drawing operation issued to a canvas 2D rendering context. -/
inductive CtxOp where
  | clearRect (x y w h : ℚ)
  | beginPath
  | moveTo (x y : ℚ)
  | lineTo (x y : ℚ)
  | closePath
  | stroke
  | fill
deriving DecidableEq, Repr

/-- The path segment of `drawLineToContext` — everything between
`ctx.beginPath()` and `ctx.fill()` inclusive, in issue order:
`beginPath; moveTo(0, halfOffset); lineTo(0, halfOffset − round(peaks[0]/absmaxHalf))`,
the forward top edge over `i ∈ [first, last)` using `peaks[2i] || 0`,
the backward bottom edge over `j` from `last−1` down to `first` using
`peaks[2j+1] || 0`, then
`lineTo(0, halfOffset − round(peaks[1]/absmaxHalf)); closePath; fill`.
`cw` is `ctx.canvas.width`, giving `scale = (cw − 1) / (last − first)`;
each vertex x is `(i − first)·scale + this.halfPixel`. -/
def drawPathOps (tileStart tileEnd halfPixel : ℚ) (cw : ℕ) (peaks : List ℚ)
    (absmax halfH offsetY : ℚ) (start end_ : ℤ) : List CtxOp :=
  let first := firstIndex tileStart start end_
  let last := lastIndex tileEnd start end_
  let scale : ℚ := ((cw : ℚ) - 1) / ((last : ℚ) - (first : ℚ))
  let halfOffset : ℚ := halfH + offsetY
  let topEdge := (intRange first last).map fun (i : ℤ) =>
    CtxOp.lineTo (((i : ℚ) - (first : ℚ)) * scale + halfPixel)
      (halfOffset - (ampToPx absmax halfH (peakAtZ peaks (2 * i)) : ℚ))
  let botEdge := (intRange first last).reverse.map fun (j : ℤ) =>
    CtxOp.lineTo (((j : ℚ) - (first : ℚ)) * scale + halfPixel)
      (halfOffset - (ampToPx absmax halfH (peakAtZ peaks (2 * j + 1)) : ℚ))
  [CtxOp.beginPath, CtxOp.moveTo 0 halfOffset,
    CtxOp.lineTo 0 (halfOffset - (ampToPx absmax halfH (peakAt peaks 0) : ℚ))]
  ++ ((topEdge ++ botEdge)
  ++ [CtxOp.lineTo 0 (halfOffset - (ampToPx absmax halfH (peakAt peaks 1) : ℚ)),
      CtxOp.closePath, CtxOp.fill])

/-- The full operation sequence `drawLineToContext` issues to a non-null
context: the full-canvas `clearRect`, the debug diagonal when
`this.canvasDebugLine` is set, then the filled envelope path. -/
def drawLineOps (tileStart tileEnd halfPixel : ℚ) (debugLine : Bool)
    (cw ch : ℕ) (peaks : List ℚ) (absmax halfH offsetY : ℚ)
    (start end_ : ℤ) : List CtxOp :=
  CtxOp.clearRect 0 0 cw ch ::
    ((if debugLine then
        [CtxOp.beginPath, CtxOp.moveTo 0 0, CtxOp.lineTo cw ch,
         CtxOp.closePath, CtxOp.stroke]
      else [])
    ++ drawPathOps tileStart tileEnd halfPixel cw peaks absmax halfH offsetY start end_)

/-- The y coordinates of the path vertices (`moveTo`/`lineTo` targets),
in issue order. -/
def pathYs (ops : List CtxOp) : List ℚ :=
  ops.filterMap fun op =>
    match op with
    | CtxOp.moveTo _ y => some y
    | CtxOp.lineTo _ y => some y
    | _ => none

/-- A canvas element together with its 2D rendering context: pixel
dimensions, the fill style of the context, and the recorded drawing content
since the last full clear (blank = `[]`). -/
structure Surface where
  width : ℕ
  height : ℕ
  fillStyle : String
  content : List CtxOp
deriving DecidableEq, Repr

/-- Effect of `ctx.clearRect(0, 0, ctx.canvas.width, ctx.canvas.height)`:
the bitmap becomes blank. -/
def clearSurface (s : Surface) : Surface := { s with content := [] }

/-- The `CanvasEntry` tile state. `wave`, `progress`, `restrictLeft` and
`restrictRight` model the element/context pairs (a pair is `none` exactly
when the source holds `null` in both of its fields, which is the only
reachable configuration). `start`/`tileEnd` are the fractional span fields
`this.start`/`this.end`; `hasProgressCanvas`, `hasRestrictedCanvases`,
`halfPixel` and `canvasDebugLine` are set on the entry by the owning
renderer. -/
structure CanvasEntry where
  wave : Option Surface
  progress : Option Surface
  restrictLeft : Option Surface
  restrictRight : Option Surface
  start : ℚ
  tileEnd : ℚ
  id : String
  hasProgressCanvas : Bool
  hasRestrictedCanvases : Bool
  halfPixel : ℚ
  canvasDebugLine : Bool
deriving DecidableEq, Repr

/-- Method `clearWave()`: clears the wave context and, when `hasProgressCanvas`,
the progress context. A `null` context there throws (`none`); the restrict
canvases are not touched by the source method. -/
def clearWave (e : CanvasEntry) : Option CanvasEntry :=
  match e.wave with
  | none => none
  | some w =>
    let e1 := { e with wave := some (clearSurface w) }
    if e.hasProgressCanvas then
      match e1.progress with
      | none => none
      | some p => some { e1 with progress := some (clearSurface p) }
    else
      some e1

/-- Method `destroy()`: nulls `waveCtx`, `wave`, `progressCtx` and `progress`.
The restrict fields are not assigned by the source method. -/
def destroy (e : CanvasEntry) : CanvasEntry :=
  { e with wave := none, progress := none }

/-- Result of `getImage`: a `Promise` resolving with a `Blob` of the wave
canvas, a data-URL string of the wave canvas, or JavaScript `undefined`
(the implicit return value when neither branch is taken). -/
inductive ImageResult where
  | blobPromise (s : Surface) (format : String) (quality : ℚ)
  | dataURL (s : Surface) (format : String) (quality : ℚ)
  | undef
deriving DecidableEq, Repr

/-- Method `getImage(format, quality, type)`. The method reads `this.wave` only in
the blob and dataURL branches (where a `null` wave throws, `none`);
it assigns no state, so it is a pure function of the entry. -/
def getImage (e : CanvasEntry) (format : String) (quality : ℚ)
    (ty : String) : Option ImageResult :=
  if ty = "blob" then
    e.wave.map fun w => ImageResult.blobPromise w format quality
  else if ty = "dataURL" then
    e.wave.map fun w => ImageResult.dataURL w format quality
  else
    some ImageResult.undef

/-- Effect of one issued operation on recorded canvas content; every
`clearRect` issued by this module covers the whole canvas, so it resets
the content to blank. -/
def applyOp (content : List CtxOp) (op : CtxOp) : List CtxOp :=
  match op with
  | CtxOp.clearRect _ _ _ _ => []
  | op => content ++ [op]

/-- Effect of an operation sequence on recorded canvas content. -/
def applyOps (content : List CtxOp) (ops : List CtxOp) : List CtxOp :=
  ops.foldl applyOp content

/-- Method `drawLineToContext` on one (non-null) target surface: issue
`drawLineOps` against the own dimensions of that surface. -/
def drawLineToSurface (tileStart tileEnd halfPixel : ℚ) (debugLine : Bool)
    (peaks : List ℚ) (absmax halfH offsetY : ℚ) (start end_ : ℤ)
    (sf : Surface) : Surface :=
  { sf with content := (applyOps sf.content
      (drawLineOps tileStart tileEnd halfPixel debugLine sf.width sf.height
        peaks absmax halfH offsetY start end_)) }

/-- Method `drawLines(peaks, absmax, halfH, offsetY, start, end)`: delegates
`drawLineToContext` with identical arguments to the wave context, the
progress context when `hasProgressCanvas`, and both restrict contexts when
`hasRestrictedCanvases`; a `null` context is a guarded no-op
(`if (!ctx) return`). -/
def drawLines (e : CanvasEntry) (peaks : List ℚ) (absmax halfH offsetY : ℚ)
    (start end_ : ℤ) : CanvasEntry :=
  let upd := drawLineToSurface e.start e.tileEnd e.halfPixel e.canvasDebugLine
    peaks absmax halfH offsetY start end_
  let e1 := { e with wave := e.wave.map upd }
  let e2 := if e.hasProgressCanvas then { e1 with progress := e1.progress.map upd } else e1
  if e.hasRestrictedCanvases then
    { e2 with restrictLeft := e2.restrictLeft.map upd,
              restrictRight := e2.restrictRight.map upd }
  else e2

/-- A fully initialized sample tile: wave, progress and both restrict
surfaces present, all 3×100, with non-blank recorded content. -/
def entryR : CanvasEntry :=
  { wave := some ⟨3, 100, "violet", [CtxOp.fill]⟩
    progress := some ⟨3, 100, "purple", [CtxOp.fill]⟩
    restrictLeft := some ⟨3, 100, "#bbb", [CtxOp.fill]⟩
    restrictRight := some ⟨3, 100, "#bbb", [CtxOp.fill]⟩
    start := 0
    tileEnd := 1
    id := "canvasentry_1"
    hasProgressCanvas := true
    hasRestrictedCanvases := true
    halfPixel := 0
    canvasDebugLine := false }

/-- A sample tile whose wave canvas (width 3) and progress canvas
(width 5) have different dimensions. -/
def entryD : CanvasEntry :=
  { wave := some ⟨3, 100, "violet", []⟩
    progress := some ⟨5, 100, "purple", []⟩
    restrictLeft := none
    restrictRight := none
    start := 0
    tileEnd := 1
    id := "canvasentry_2"
    hasProgressCanvas := true
    hasRestrictedCanvases := false
    halfPixel := 0
    canvasDebugLine := false }

/-- Rounding an integer value returns that integer. -/
lemma jsRound_intCast (n : ℤ) : jsRound (n : ℚ) = n := by
  unfold jsRound
  rw [add_comm, Int.floor_add_int]
  norm_num

/-- An empty iteration interval. -/
lemma intRange_of_le {a b : ℤ} (h : b ≤ a) : intRange a b = [] := by
  unfold intRange
  have hz : (b - a).toNat = 0 := Int.toNat_of_nonpos (by omega)
  rw [hz]
  rfl

/-- Amplitude `0` maps to pixel offset `0` for any normalization. -/
lemma ampToPx_zero (absmax halfH : ℚ) : ampToPx absmax halfH 0 = 0 := by
  unfold ampToPx jsRound
  rw [zero_div, zero_add]
  norm_num

/-- Out-of-range lookups read `0`. -/
lemma peakAtZ_nil (k : ℤ) : peakAtZ [] k = 0 := by
  unfold peakAtZ
  split <;> rfl

/-- Out-of-range lookups read `0` (natural index form). -/
lemma peakAt_nil (k : ℕ) : peakAt [] k = 0 := by
  simp [peakAt]

/-- C1 (amended): in every invocation of the rasterizer, the polygon path
opens with `moveTo (0, halfH + offsetY)` followed by a vertical edge to
`(0, halfH + offsetY − ampToPx(peaks[0]))` — the maximum sample at absolute
buffer index 0, regardless of the sub-range index `first` — and the last
vertex before closing is `(0, halfH + offsetY − ampToPx(peaks[1]))`, the
minimum sample at absolute buffer index 0. -/
theorem c1_path_endpoints (ts te hp : ℚ) (cw : ℕ) (peaks : List ℚ)
    (am hH oY : ℚ) (s e_ : ℤ) :
    ∃ mid, drawPathOps ts te hp cw peaks am hH oY s e_ =
      [CtxOp.beginPath, CtxOp.moveTo 0 (hH + oY),
       CtxOp.lineTo 0 ((hH + oY) - (ampToPx am hH (peakAt peaks 0) : ℚ))]
      ++ (mid ++ [CtxOp.lineTo 0 ((hH + oY) - (ampToPx am hH (peakAt peaks 1) : ℚ)),
          CtxOp.closePath, CtxOp.fill]) :=
  ⟨_, rfl⟩

/-- C1 counterexample: tile span `[1/2, 1]`, view window `[0, 4)`, so
`first = 2` and `max[first] = peaks[4] = 1/5`, `min[first] = peaks[5] = −1/5`.
The claim predicts the path opens at `(0, 50 − ampToPx(max[first])) = (0, 40)`
and its last vertex before closing is `(0, 50 − ampToPx(min[first])) = (0, 60)`;
the full operation list shows the path actually opens with `moveTo (0, 50)`
and `lineTo (0, 0)` (using `peaks[0] = 1`), and the last vertex before
`closePath` is `(0, 75)` (using `peaks[1] = −1/2`). -/
theorem c1_counterexample :
    drawPathOps (1/2) 1 (1/2) 5 [1, -1/2, 4/5, -4/5, 1/5, -1/5, 3/5, -3/5] 1 50 0 0 4 =
      [CtxOp.beginPath, CtxOp.moveTo 0 50, CtxOp.lineTo 0 0,
       CtxOp.lineTo (1/2) 40, CtxOp.lineTo (11/6) 20, CtxOp.lineTo (19/6) 50,
       CtxOp.lineTo (19/6) 50, CtxOp.lineTo (11/6) 80, CtxOp.lineTo (1/2) 60,
       CtxOp.lineTo 0 75, CtxOp.closePath, CtxOp.fill] ∧
    (50 : ℚ) - (ampToPx 1 50 (peakAtZ [1, -1/2, 4/5, -4/5, 1/5, -1/5, 3/5, -3/5]
      (2 * firstIndex (1/2) 0 4)) : ℚ) = 40 ∧
    (50 : ℚ) - (ampToPx 1 50 (peakAtZ [1, -1/2, 4/5, -4/5, 1/5, -1/5, 3/5, -3/5]
      (2 * firstIndex (1/2) 0 4 + 1)) : ℚ) = 60 := by
  have hf : firstIndex (1/2) 0 4 = 2 := by norm_num [firstIndex, jsRound]
  have hl : lastIndex 1 0 4 = 5 := by norm_num [lastIndex, jsRound]
  have hr : intRange 2 5 = [2, 3, 4] := by decide
  refine ⟨?_, ?_, ?_⟩ <;>
    simp only [drawPathOps, hf, hl, hr] <;>
    simp [peakAt, peakAtZ, ampToPx, jsRound, List.getD] <;>
    norm_num

/-- C2 (amended): `last − 1 = first` whenever the `span.end` field of a tile
equals the `span.start` field of the next tile (the value `m`), so the extra trailing index of a
tile is exactly the leading index of the tile that follows; and for the
final tile (`span.end = 1`) the computation `last = viewFirst +
round((viewEnd−viewFirst)·1) + 1 = viewEnd + 1` also includes the extra
trailing index — one past the view window — rather than omitting it. -/
theorem c2_tile_index_range (m : ℚ) (s e_ : ℤ) :
    lastIndex m s e_ - 1 = firstIndex m s e_ ∧ lastIndex 1 s e_ = e_ + 1 := by
  constructor
  · simp [lastIndex, firstIndex]
  · have hcast : ((e_ : ℚ) - (s : ℚ)) * 1 = ((e_ - s : ℤ) : ℚ) := by push_cast; ring
    simp only [lastIndex, hcast, jsRound_intCast]
    ring

/-- C2 counterexample: for the final tile (`span.end = 1`) over the view
window `[0, 3)`, the computed `last` is `4 = viewEnd + 1`, and the extra
trailing index `3 = viewEnd` lies inside the rendered range `[first, last)`
— the claim states the final tile does not include this extra index. -/
theorem c2_counterexample :
    lastIndex 1 0 3 = 3 + 1 ∧
    (3 : ℤ) ∈ intRange (firstIndex 0 0 3) (lastIndex 1 0 3) := by
  have h1 : firstIndex 0 0 3 = 0 := by norm_num [firstIndex, jsRound]
  have h2 : lastIndex 1 0 3 = 4 := by norm_num [lastIndex, jsRound]
  rw [h1, h2]
  exact ⟨by decide, by decide⟩

/-- C3: for `peaks = [1, −1/2, 4/5, −4/5, 1/5, −1/5]`, `absMax = 1`,
`halfH = 50`, `offsetY = 0`, a single tile spanning `[0, 1]` with canvas
width 3 and view window `[0, 3)`, the vertex y values in issue order are
`[50, 0, 0, 10, 40, 50, 50, 60, 90, 75, 75]`: positions 2, 3, 4 are the
top-edge vertices of columns 0, 1, 2 at y `0, 10, 40`, and positions
9, 8, 7 are the bottom-edge vertices of columns 0, 1, 2 at y `75, 90, 60`
(the remaining entries are the center-line open/close moves and the
one-sample overlap column, which reads past the buffer and renders as 0,
that is y `50`). This holds for every `halfPixel` value `hp`. -/
theorem c3_scenario_vertices (hp : ℚ) :
    pathYs (drawPathOps 0 1 hp 3 [1, -1/2, 4/5, -4/5, 1/5, -1/5] 1 50 0 0 3) =
      [50, 0, 0, 10, 40, 50, 50, 60, 90, 75, 75] := by
  have h1 : firstIndex 0 0 3 = 0 := by norm_num [firstIndex, jsRound]
  have h2 : lastIndex 1 0 3 = 4 := by norm_num [lastIndex, jsRound]
  have h3 : intRange 0 4 = [0, 1, 2, 3] := by decide
  simp only [drawPathOps, pathYs, h1, h2, h3]
  simp [peakAt, peakAtZ, ampToPx, jsRound, List.getD, List.filterMap_cons]
  norm_num

/-- C4: for every `absMax > 0` and integer `halfH > 0`, the normalization
`ampToPx(v) = round(v / (absMax / halfH))` is monotonically non-decreasing
in `v`, maps `0` to `0`, and maps `absMax` exactly to `halfH`. -/
theorem c4_ampToPx_normalization (am : ℚ) (n : ℤ) (ha : 0 < am) (hn : 0 < n) :
    (∀ v w : ℚ, v ≤ w → ampToPx am n v ≤ ampToPx am n w) ∧
    ampToPx am n 0 = 0 ∧ ampToPx am n am = n := by
  have hn' : (0 : ℚ) < (n : ℚ) := by exact_mod_cast hn
  have hc : (0 : ℚ) < am / (n : ℚ) := div_pos ha hn'
  refine ⟨?_, ampToPx_zero am n, ?_⟩
  · intro v w hvw
    unfold ampToPx jsRound
    have hdiv : v / (am / (n : ℚ)) ≤ w / (am / (n : ℚ)) := by
      rw [div_eq_mul_inv v, div_eq_mul_inv w]
      exact mul_le_mul_of_nonneg_right hvw (inv_nonneg.mpr hc.le)
    exact Int.floor_le_floor (by linarith)
  · have hne : am / (am / (n : ℚ)) = (n : ℚ) := by
      field_simp
    rw [ampToPx, hne, jsRound_intCast]

/-- C4 witness at `absMax = 1`, `halfH = 50`: monotonicity at `4/5 ≤ 1`,
`ampToPx 0 = 0` and `ampToPx absMax = halfH`. -/
theorem c4_witness :
    ampToPx 1 ((50 : ℤ) : ℚ) (4/5) ≤ ampToPx 1 ((50 : ℤ) : ℚ) 1 ∧
    ampToPx 1 ((50 : ℤ) : ℚ) 0 = 0 ∧ ampToPx 1 ((50 : ℤ) : ℚ) 1 = 50 := by
  obtain ⟨hmono, hzero, htop⟩ := c4_ampToPx_normalization 1 50 (by norm_num) (by norm_num)
  exact ⟨hmono (4/5) 1 (by norm_num), hzero, htop⟩

/-- C5 (amended): when the computed sub-range is empty (`last ≤ first`),
the draw is not skipped: the rasterizer still clears the target surface and
still builds and fills a path — a degenerate zero-area path whose every
vertex lies at x = 0 — and no error is raised (the computation is total).
The surface content is therefore not left unchanged: it is cleared. -/
theorem c5_empty_range_draw (ts te hp : ℚ) (dbg : Bool) (cw ch : ℕ)
    (peaks : List ℚ) (am hH oY : ℚ) (s e_ : ℤ)
    (hle : lastIndex te s e_ ≤ firstIndex ts s e_) :
    drawPathOps ts te hp cw peaks am hH oY s e_ =
      [CtxOp.beginPath, CtxOp.moveTo 0 (hH + oY),
       CtxOp.lineTo 0 ((hH + oY) - (ampToPx am hH (peakAt peaks 0) : ℚ)),
       CtxOp.lineTo 0 ((hH + oY) - (ampToPx am hH (peakAt peaks 1) : ℚ)),
       CtxOp.closePath, CtxOp.fill] ∧
    CtxOp.clearRect 0 0 cw ch ∈
      drawLineOps ts te hp dbg cw ch peaks am hH oY s e_ ∧
    CtxOp.fill ∈ drawLineOps ts te hp dbg cw ch peaks am hH oY s e_ := by
  refine ⟨?_, ?_, ?_⟩
  · simp [drawPathOps, intRange_of_le hle]
  · simp [drawLineOps]
  · simp [drawLineOps, drawPathOps]

/-- C5 witness: tile span `[0, 1/2]` against the inverted view window
`[5, 3)` yields `first = last = 5`; the amended theorem instantiates there. -/
theorem c5_witness :
    drawPathOps 0 (1/2) 0 4 [1, -1/2] 1 50 0 5 3 =
      [CtxOp.beginPath, CtxOp.moveTo 0 ((50 : ℚ) + 0),
       CtxOp.lineTo 0 (((50 : ℚ) + 0) - (ampToPx 1 50 (peakAt [1, -1/2] 0) : ℚ)),
       CtxOp.lineTo 0 (((50 : ℚ) + 0) - (ampToPx 1 50 (peakAt [1, -1/2] 1) : ℚ)),
       CtxOp.closePath, CtxOp.fill] ∧
    CtxOp.clearRect 0 0 4 100 ∈ drawLineOps 0 (1/2) 0 false 4 100 [1, -1/2] 1 50 0 5 3 ∧
    CtxOp.fill ∈ drawLineOps 0 (1/2) 0 false 4 100 [1, -1/2] 1 50 0 5 3 := by
  have h := c5_empty_range_draw 0 (1/2) 0 false 4 100 [1, -1/2] 1 50 0 5 3
    (by norm_num [firstIndex, lastIndex, jsRound])
  exact h

/-- C5 counterexample: at the same empty sub-range (`first = last = 5`) the
draw is not a no-op — the operation sequence clears the surface and fills a
path, and applying it to a surface with non-blank content changes that
content (it becomes the newly drawn degenerate path, not the old content). -/
theorem c5_counterexample :
    firstIndex 0 5 3 = lastIndex (1/2) 5 3 ∧
    CtxOp.fill ∈ drawLineOps 0 (1/2) 0 false 4 100 [1, -1/2] 1 50 0 5 3 ∧
    drawLineToSurface 0 (1/2) 0 false [1, -1/2] 1 50 0 5 3 ⟨4, 100, "violet", [CtxOp.fill]⟩ ≠
      ⟨4, 100, "violet", [CtxOp.fill]⟩ := by
  have hf : firstIndex 0 5 3 = 5 := by norm_num [firstIndex, jsRound]
  have hl : lastIndex (1/2) 5 3 = 5 := by norm_num [lastIndex, jsRound]
  have hr : intRange 5 5 = [] := by decide
  refine ⟨by rw [hf, hl], ?_, ?_⟩
  · simp [drawLineOps, drawPathOps]
  · simp only [drawLineToSurface, drawLineOps, drawPathOps, hf, hl, hr]
    simp [applyOps, applyOp, peakAt, ampToPx, jsRound, List.getD]

/-- C6: a max or min read at an index with no sample substitutes amplitude
`0` (first conjunct, for any buffer and any in-range loop index `i` with
`2·i` beyond the buffer), and a draw over a buffer with no peak data at all
produces a path whose every vertex (`moveTo` or `lineTo` target) lies on
the half-height line `halfH + offsetY` — a zero-area envelope — while the
path is still closed and filled rather than raising an error. -/
theorem c6_missing_samples :
    (∀ (peaks : List ℚ) (i : ℤ), 0 ≤ i → (peaks.length : ℤ) ≤ 2 * i →
      peakAtZ peaks (2 * i) = 0 ∧ peakAtZ peaks (2 * i + 1) = 0) ∧
    (∀ (ts te hp : ℚ) (cw : ℕ) (am hH oY : ℚ) (s e_ : ℤ) (x y : ℚ),
      (CtxOp.moveTo x y ∈ drawPathOps ts te hp cw [] am hH oY s e_ ∨
       CtxOp.lineTo x y ∈ drawPathOps ts te hp cw [] am hH oY s e_) →
      y = hH + oY) ∧
    (∀ (ts te hp : ℚ) (cw : ℕ) (am hH oY : ℚ) (s e_ : ℤ),
      ∃ l, drawPathOps ts te hp cw [] am hH oY s e_ =
        l ++ [CtxOp.closePath, CtxOp.fill]) := by
  refine ⟨?_, ?_, ?_⟩
  · intro peaks i hi hlen
    have h2i : ¬ (2 * i < 0) := by omega
    have h2i1 : ¬ (2 * i + 1 < 0) := by omega
    constructor
    · rw [peakAtZ, if_neg h2i]
      exact List.getD_eq_default _ _ (by omega)
    · rw [peakAtZ, if_neg h2i1]
      exact List.getD_eq_default _ _ (by omega)
  · intro ts te hp cw am hH oY s e_ x y hmem
    rcases hmem with hm | hm <;>
      simp [drawPathOps, peakAt_nil, peakAtZ_nil, ampToPx_zero] at hm <;>
      aesop
  · intro ts te hp cw am hH oY s e_
    refine ⟨[CtxOp.beginPath, CtxOp.moveTo 0 (hH + oY),
      CtxOp.lineTo 0 ((hH + oY) - (ampToPx am hH (peakAt [] 0) : ℚ))]
      ++ (((intRange (firstIndex ts s e_) (lastIndex te s e_)).map fun (i : ℤ) =>
            CtxOp.lineTo (((i : ℚ) - (firstIndex ts s e_ : ℚ)) *
                (((cw : ℚ) - 1) / ((lastIndex te s e_ : ℚ) - (firstIndex ts s e_ : ℚ))) + hp)
              ((hH + oY) - (ampToPx am hH (peakAtZ [] (2 * i)) : ℚ)))
        ++ ((intRange (firstIndex ts s e_) (lastIndex te s e_)).reverse.map fun (j : ℤ) =>
            CtxOp.lineTo (((j : ℚ) - (firstIndex ts s e_ : ℚ)) *
                (((cw : ℚ) - 1) / ((lastIndex te s e_ : ℚ) - (firstIndex ts s e_ : ℚ))) + hp)
              ((hH + oY) - (ampToPx am hH (peakAtZ [] (2 * j + 1)) : ℚ)))
        ++ [CtxOp.lineTo 0 ((hH + oY) - (ampToPx am hH (peakAt [] 1) : ℚ))]), ?_⟩
    simp [drawPathOps]

/-- C6 witness: a buffer of length 1 has no sample at column index 1, and a
draw over the empty buffer keeps its `moveTo (0, 50 + 0)` vertex on the
half line and still ends in `closePath; fill`. -/
theorem c6_witness :
    (peakAtZ [1] (2 * 1) = 0 ∧ peakAtZ [1] (2 * 1 + 1) = 0) ∧
    ((50 : ℚ) + 0 = 50 + 0) ∧
    (∃ l, drawPathOps 0 1 0 3 [] 1 50 0 0 3 = l ++ [CtxOp.closePath, CtxOp.fill]) := by
  refine ⟨c6_missing_samples.1 [1] 1 (by norm_num) (by norm_num), ?_,
    c6_missing_samples.2.2 0 1 0 3 1 50 0 0 3⟩
  exact c6_missing_samples.2.1 0 1 0 3 1 50 0 0 3 0 (50 + 0)
    (Or.inl (by simp [drawPathOps]))

/-- C7 (amended): `clearWave` erases the wave surface to blank and, when
`hasProgressCanvas` is set, the progress surface to blank; it does not touch
the restrict surfaces, and every other field of the tile (span, ids, flags,
the surface dimensions and fill styles) is left unchanged. -/
theorem c7_clearWave (e : CanvasEntry) (w p : Surface)
    (hw : e.wave = some w) (hp : e.progress = some p) :
    ∃ e2, clearWave e = some e2 ∧
      e2.wave = some (clearSurface w) ∧
      (e.hasProgressCanvas = true → e2.progress = some (clearSurface p)) ∧
      (e.hasProgressCanvas = false → e2.progress = e.progress) ∧
      e2.restrictLeft = e.restrictLeft ∧
      e2.restrictRight = e.restrictRight ∧
      e2.start = e.start ∧ e2.tileEnd = e.tileEnd ∧ e2.id = e.id ∧
      e2.hasProgressCanvas = e.hasProgressCanvas ∧
      e2.hasRestrictedCanvases = e.hasRestrictedCanvases ∧
      e2.halfPixel = e.halfPixel ∧
      e2.canvasDebugLine = e.canvasDebugLine ∧
      (clearSurface w).content = [] ∧
      (clearSurface w).width = w.width ∧
      (clearSurface w).height = w.height ∧
      (clearSurface w).fillStyle = w.fillStyle := by
  cases hpc : e.hasProgressCanvas
  · refine ⟨{ e with wave := some (clearSurface w) }, ?_, rfl, ?_, fun _ => rfl, rfl, rfl, rfl, rfl, rfl, hpc, rfl, rfl, rfl, rfl, rfl, rfl, rfl⟩
    · simp [clearWave, hw, hpc]
    · intro h
      exact absurd h (by simp)
  · refine ⟨{ e with wave := some (clearSurface w), progress := some (clearSurface p) }, ?_, rfl, fun _ => rfl, ?_, rfl, rfl, rfl, rfl, rfl, hpc, rfl, rfl, rfl, rfl, rfl, rfl, rfl⟩
    · simp [clearWave, hw, hp, hpc]
    · intro h
      exact absurd h (by simp)

/-- C7 witness: the amended theorem instantiated on the fully configured
sample tile. -/
theorem c7_witness :
    ∃ e2, clearWave entryR = some e2 ∧ e2.wave = some (clearSurface ⟨3, 100, "violet", [CtxOp.fill]⟩) := by
  obtain ⟨e2, h1, h2, _⟩ := c7_clearWave entryR
    ⟨3, 100, "violet", [CtxOp.fill]⟩ ⟨3, 100, "purple", [CtxOp.fill]⟩ rfl rfl
  exact ⟨e2, h1, h2⟩

/-- C7 counterexample: on a tile with the restrict feature enabled and a
non-blank restrict surface, `clearWave` succeeds but leaves the left
restrict surface content `[fill]`, which is not blank — the claim states
every owned surface, the restrict surfaces included, is erased. -/
theorem c7_counterexample :
    entryR.hasRestrictedCanvases = true ∧
    (clearWave entryR).map (fun e2 => e2.restrictLeft) =
      some (some ⟨3, 100, "#bbb", [CtxOp.fill]⟩) ∧
    ([CtxOp.fill] : List CtxOp) ≠ [] := by
  refine ⟨rfl, ?_, by simp⟩
  simp [clearWave, entryR, clearSurface]

/-- C8 (amended): `destroy` nulls the wave and progress surface/context
pairs and is idempotent, but it leaves the restrict surface references
untouched. -/
theorem c8_destroy (e : CanvasEntry) :
    (destroy e).wave = none ∧ (destroy e).progress = none ∧
    (destroy e).restrictLeft = e.restrictLeft ∧
    (destroy e).restrictRight = e.restrictRight ∧
    (destroy e).start = e.start ∧ (destroy e).tileEnd = e.tileEnd ∧
    (destroy e).id = e.id ∧
    destroy (destroy e) = destroy e := by
  refine ⟨rfl, rfl, rfl, rfl, rfl, rfl, rfl, rfl⟩

/-- C8 counterexample: on a tile with restrict surfaces present and the
restrict feature enabled, `destroy` leaves the left restrict surface
reference non-null — the claim states every owned surface reference,
the restrict surfaces included, becomes null. -/
theorem c8_counterexample :
    entryR.hasRestrictedCanvases = true ∧
    (destroy entryR).restrictLeft = some ⟨3, 100, "#bbb", [CtxOp.fill]⟩ ∧
    (destroy entryR).restrictLeft ≠ none := by
  refine ⟨rfl, rfl, by simp [destroy, entryR]⟩

/-- C9: `getImage(format, quality, type)` returns the blob promise exactly
when `type = "blob"`, the data URL exactly when `type = "dataURL"`, and
JavaScript `undefined` for every other `type` value — without touching the
wave surface in that branch, without an error, and with no effect on the
tile (the source method performs no assignment, so it is embedded as a
pure function of the entry). -/
theorem c9_getImage (e : CanvasEntry) (w : Surface) (f : String) (q : ℚ)
    (hw : e.wave = some w) :
    getImage e f q "blob" = some (ImageResult.blobPromise w f q) ∧
    getImage e f q "dataURL" = some (ImageResult.dataURL w f q) ∧
    ∀ ty : String, ty ≠ "blob" → ty ≠ "dataURL" →
      getImage e f q ty = some ImageResult.undef := by
  refine ⟨by simp [getImage, hw], by simp [getImage, hw], ?_⟩
  intro ty h1 h2
  simp [getImage, h1, h2]

/-- C9 witness: the three branches evaluated on the sample tile. -/
theorem c9_witness :
    getImage entryR "image/png" (92/100) "blob" =
      some (ImageResult.blobPromise ⟨3, 100, "violet", [CtxOp.fill]⟩ "image/png" (92/100)) ∧
    getImage entryR "image/png" (92/100) "dataURL" =
      some (ImageResult.dataURL ⟨3, 100, "violet", [CtxOp.fill]⟩ "image/png" (92/100)) ∧
    getImage entryR "image/png" (92/100) "other" = some ImageResult.undef := by
  obtain ⟨h1, h2, h3⟩ := c9_getImage entryR ⟨3, 100, "violet", [CtxOp.fill]⟩
    "image/png" (92/100) rfl
  exact ⟨h1, h2, h3 "other" (by simp) (by simp)⟩

/-- C10 (amended): `drawLines` passes identical arguments to every owned
context, and the issued geometry depends on the target only through its
canvas dimensions; hence when the owned surfaces all share the same width
and height (as `updateDimensions` arranges), all owned surfaces end the
draw with the identical recorded content, differing at most in their
configured fill styles. -/
theorem c10_drawLines_uniform (e : CanvasEntry) (peaks : List ℚ)
    (am hH oY : ℚ) (s e_ : ℤ) (w p rl rr : Surface)
    (hw : e.wave = some w) (hpc : e.hasProgressCanvas = true)
    (hp : e.progress = some p)
    (hrc : e.hasRestrictedCanvases = true)
    (hrl : e.restrictLeft = some rl) (hrr : e.restrictRight = some rr)
    (hpw : p.width = w.width) (hph : p.height = w.height)
    (hrlw : rl.width = w.width) (hrlh : rl.height = w.height)
    (hrrw : rr.width = w.width) (hrrh : rr.height = w.height) :
    ∃ c : List CtxOp,
      (drawLines e peaks am hH oY s e_).wave.map Surface.content = some c ∧
      (drawLines e peaks am hH oY s e_).progress.map Surface.content = some c ∧
      (drawLines e peaks am hH oY s e_).restrictLeft.map Surface.content = some c ∧
      (drawLines e peaks am hH oY s e_).restrictRight.map Surface.content = some c := by
  refine ⟨applyOps []
    ((if e.canvasDebugLine then
        [CtxOp.beginPath, CtxOp.moveTo 0 0, CtxOp.lineTo (w.width : ℚ) (w.height : ℚ),
         CtxOp.closePath, CtxOp.stroke]
      else [])
      ++ drawPathOps e.start e.tileEnd e.halfPixel w.width peaks am hH oY s e_),
    ?_, ?_, ?_, ?_⟩ <;>
  simp [drawLines, hw, hpc, hp, hrc, hrl, hrr, drawLineToSurface, drawLineOps,
    applyOps, applyOp, hpw, hph, hrlw, hrlh, hrrw, hrrh]

/-- C10 witness: the amended theorem instantiated on the fully configured
sample tile (all four surfaces 3×100). -/
theorem c10_witness :
    ∃ c : List CtxOp,
      (drawLines entryR [1] 1 50 0 0 3).wave.map Surface.content = some c ∧
      (drawLines entryR [1] 1 50 0 0 3).progress.map Surface.content = some c := by
  obtain ⟨c, h1, h2, _⟩ := c10_drawLines_uniform entryR [1] 1 50 0 0 3
    ⟨3, 100, "violet", [CtxOp.fill]⟩ ⟨3, 100, "purple", [CtxOp.fill]⟩
    ⟨3, 100, "#bbb", [CtxOp.fill]⟩ ⟨3, 100, "#bbb", [CtxOp.fill]⟩
    rfl rfl rfl rfl rfl rfl rfl rfl rfl rfl rfl rfl
  exact ⟨c, h1, h2⟩

/-- C10 counterexample: on a tile whose wave canvas is 3 px wide and whose
progress canvas is 5 px wide, one `drawLines` call leaves the two surfaces
with different recorded geometry (different `clearRect` extents and vertex
x coordinates), so the op sequences issued to the owned contexts are not
identical for every tile state — they coincide only when the surfaces share
dimensions. -/
theorem c10_counterexample :
    (drawLines entryD [] 1 50 0 0 3).wave.map Surface.content ≠
      (drawLines entryD [] 1 50 0 0 3).progress.map Surface.content := by
  have h1 : firstIndex 0 0 3 = 0 := by norm_num [firstIndex, jsRound]
  have h2 : lastIndex 1 0 3 = 4 := by norm_num [lastIndex, jsRound]
  have h3 : intRange 0 4 = [0, 1, 2, 3] := by decide
  simp only [drawLines, entryD, drawLineToSurface, drawLineOps, drawPathOps,
    h1, h2, h3]
  simp [drawLineToSurface, drawLineOps, drawPathOps, h1, h2, h3,
    applyOps, applyOp, peakAt_nil, peakAtZ_nil, ampToPx_zero]
  norm_num

end Wavesurfer
